import Mathlib

/-!
Verification of the MAPI client protocol core (`pymonetdb/mapi.py`).

The Python source is shallowly embedded: bytes are `Nat` (values 0..255),
byte streams are `List Nat`, Python exceptions are values of `MapiError`
carried in `Except`, and socket traffic is modelled by explicit lists
(input streams for reads, emitted byte lists for writes).
-/

namespace Pymonetdb

/-- Kind of Python exception raised by the mapi layer.  The first nine match
the error taxonomy of `pymonetdb.exceptions`; `brokenPipe`, `valueError`,
`assertionError` and `unicodeDecodeError` are Python builtin exceptions that
`mapi.py` can also raise. -/
inductive ErrKind where
  | operational
  | integrity
  | programming
  | notSupported
  | database
  | internalError
  | interfaceError
  | dataError
  | warning
  | brokenPipe
  | valueError
  | assertionError
  | unicodeDecodeError
deriving DecidableEq, Repr

/-- A raised Python exception: its class (kind) and message. -/
structure MapiError where
  kind : ErrKind
  msg : List Char
deriving DecidableEq, Repr

/-- Python: `MAX_PACKAGE_LENGTH = (1024 * 8) - 2`. -/
def MAX_PACKAGE_LENGTH : Nat := 1024 * 8 - 2

/-- Python: `STATE_INIT = 0`. -/
def STATE_INIT : Nat := 0

/-- Python: `STATE_READY = 1`. -/
def STATE_READY : Nat := 1

/-- Python strings are modelled as lists of characters (code points), so that
indexing, slicing and splitting match Python's semantics and stay
kernel-computable. -/
abbrev Str := List Char

/-- Conversion of a Lean string literal to the model type. -/
def pstr (s : String) : Str := s.toList

/-- Python: `MSG_MORE = "\1\2\n"`. -/
def MSG_MORE : Str := pstr "\x01\x02\n"

/-- Python: `MSG_INFO = "#"` (a one-character marker, modelled as a `Char`). -/
def MSG_INFO : Char := '#'

/-- Python: `MSG_ERROR = "!"`. -/
def MSG_ERROR : Char := '!'

/-- Python: `MSG_Q = "&"`. -/
def MSG_Q : Char := '&'

/-- Python: `MSG_HEADER = "%"`. -/
def MSG_HEADER : Char := '%'

/-- Python: `MSG_TUPLE = "["`. -/
def MSG_TUPLE : Char := '['

/-- Python: `MSG_OK = "=OK"`. -/
def MSG_OK : Str := pstr "=OK"

/-- Python: `MSG_QUPDATE = "&2"`. -/
def MSG_QUPDATE : Str := pstr "&2"

/-- Little-endian 16-bit encoding, Python `struct.pack('<H', v)`:
two bytes, low byte first. -/
def le16 (v : Nat) : List Nat := [v % 256, v / 256 % 256]

/-- Embedding of `Connection._putblock_raw(block, finish)` (mapi.py:641-653):
split `block` into chunks of at most `MAX_PACKAGE_LENGTH` bytes, each chunk
preceded by the 16-bit little-endian header `(length << 1) + last`, where the
`last` bit is set only on the final (short) chunk and only when `finish` is
true.  Returns the concatenation of all bytes sent on the socket. -/
def putblock_raw (block : List Nat) (finish : Bool) : List Nat :=
  if h : (block.take MAX_PACKAGE_LENGTH).length < MAX_PACKAGE_LENGTH then
    le16 (((block.take MAX_PACKAGE_LENGTH).length <<< 1) + (if finish then 1 else 0))
      ++ block.take MAX_PACKAGE_LENGTH
  else
    le16 ((block.take MAX_PACKAGE_LENGTH).length <<< 1) ++ block.take MAX_PACKAGE_LENGTH
      ++ putblock_raw (block.drop MAX_PACKAGE_LENGTH) finish
termination_by block.length
decreasing_by
  simp only [List.length_take, List.length_drop, MAX_PACKAGE_LENGTH] at *
  omega

/-- Embedding of `Connection._getbytes(buffer, offset, count)` (mapi.py:585-603):
read exactly `count` bytes from the socket.  The socket is modelled as the
byte list `stream`; if it is exhausted before `count` bytes are read
(`recv_into` returning 0), Python raises
`BrokenPipeError("Server closed connection")`.  On success, returns the bytes
read and the rest of the stream. -/
def getbytes (stream : List Nat) (count : Nat) : Except MapiError (List Nat × List Nat) :=
  if count ≤ stream.length then
    .ok (stream.take count, stream.drop count)
  else
    .error ⟨.brokenPipe, pstr "Server closed connection"⟩

/-- Embedding of `Connection._get_minor_block` (mapi.py:576-583): read a 2-byte
little-endian header, decode `length = header >> 1` and `last = header & 1`,
then read `length` payload bytes.  Returns the payload, the `last` flag, and
the remaining stream. -/
def get_minor_block (stream : List Nat) : Except MapiError (List Nat × Bool × List Nat) :=
  match getbytes stream 2 with
  | .error e => .error e
  | .ok (hdr, rest) =>
    match getbytes rest ((hdr.getD 0 0 + 256 * hdr.getD 1 0) >>> 1) with
    | .error e => .error e
    | .ok (payload, rest2) =>
      .ok (payload, (hdr.getD 0 0 + 256 * hdr.getD 1 0) &&& 1 == 1, rest2)

/-- Embedding of `Connection._getblock_raw` (mapi.py:566-574): read minor
blocks, concatenating their payloads, until one with the `last` bit set.
Returns the whole payload and the rest of the stream. -/
def getblock_raw (stream : List Nat) : Except MapiError (List Nat × List Nat) :=
  match h : get_minor_block stream with
  | .error e => .error e
  | .ok (payload, last, rest) =>
    if last then
      .ok (payload, rest)
    else
      match getblock_raw rest with
      | .error e => .error e
      | .ok (payload2, rest2) => .ok (payload ++ payload2, rest2)
termination_by stream.length
decreasing_by
  simp only [get_minor_block, getbytes] at h
  split at h
  next heq => simp at h
  next hdr rest1 heq =>
    split at h
    next heq2 => simp at h
    next payload1 rest2 heq2 =>
      simp only [Except.ok.injEq, Prod.mk.injEq] at h
      obtain ⟨-, -, hrest⟩ := h
      split at heq
      next h2 =>
        simp only [Except.ok.injEq, Prod.mk.injEq] at heq
        obtain ⟨-, hrest1⟩ := heq
        split at heq2
        next h3 =>
          simp only [Except.ok.injEq, Prod.mk.injEq] at heq2
          obtain ⟨-, hrest2⟩ := heq2
          subst hrest
          subst hrest2
          subst hrest1
          simp only [List.length_drop] at h3 ⊢
          omega
        next => simp at heq2
      next => simp at heq

/-- Decomposition of a byte list into maximal chunks of `MAX_PACKAGE_LENGTH`
bytes (the chunks `_putblock_raw` would send), used to state properties of
the serialized form. -/
def chunkList (block : List Nat) : List (List Nat) :=
  if block.isEmpty then []
  else block.take MAX_PACKAGE_LENGTH :: chunkList (block.drop MAX_PACKAGE_LENGTH)
termination_by block.length
decreasing_by
  rename_i h
  simp only [List.isEmpty_iff] at h
  simp only [List.length_drop, MAX_PACKAGE_LENGTH]
  cases block with
  | nil => exact absurd rfl h
  | cons a t => simp; omega

/-- Model of Python `s.startswith(pre)`. -/
def strStartsWith : Str → Str → Bool
  | _, [] => true
  | [], _ :: _ => false
  | c :: ct, p :: pt => c == p && strStartsWith ct pt

/-- Model of Python `s.split(c)` for a one-character separator: split on every
occurrence of `c`, keeping empty pieces (`"".split(c) == [""]`). -/
def splitOnChar (c : Char) : Str → List Str
  | [] => [[]]
  | a :: t =>
    match splitOnChar c t with
    | [] => [[a]]
    | h :: t' => if a = c then [] :: h :: t' else (a :: h) :: t'

/-- Model of Python `s.strip()`: remove leading and trailing whitespace. -/
def strip (s : Str) : Str :=
  ((s.dropWhile Char.isWhitespace).reverse.dropWhile Char.isWhitespace).reverse

/-- Model of Python `str.index(s, c, start)`: the index of the first occurrence
of `c` at position `start` or later, `none` when absent (Python raises
`ValueError`). -/
def strIndexFrom (s : Str) (c : Char) (start : Nat) : Option Nat :=
  match (s.drop start).findIdx? (fun a => a == c) with
  | some i => some (start + i)
  | none => none

/-- Accumulating decimal-digit parser used by `pyInt`. -/
def parseDigits : Str → Nat → Option Nat
  | [], acc => some acc
  | c :: t, acc => if c.isDigit then parseDigits t (acc * 10 + (c.toNat - 48)) else none

/-- Model of Python `int(s)` on canonical inputs: an optional sign followed by
decimal digits; `none` (Python `ValueError`) otherwise.  The tolerance of
`int` for surrounding whitespace and underscores is not modelled. -/
def pyInt (s : Str) : Option Int :=
  match s with
  | '-' :: t => if t.isEmpty then none else (parseDigits t 0).map (fun n => -(n : Int))
  | '+' :: t => if t.isEmpty then none else (parseDigits t 0).map (fun n => (n : Int))
  | t => if t.isEmpty then none else (parseDigits t 0).map (fun n => (n : Int))

/-- Model of Python `str(i)` for an integer. -/
def intToStr (i : Int) : Str := (toString i).toList

/-- Python dict `errors` (mapi.py:58-64): SQLSTATE code to exception class. -/
def mapiErrors : List (Str × ErrKind) :=
  [(pstr "42S02", .operational),
   (pstr "40002", .integrity),
   (pstr "2D000", .integrity),
   (pstr "40000", .integrity),
   (pstr "M0M29", .integrity)]

/-- The prefix-stripping step of `handle_error` (mapi.py:79-81): when the
string starts with `"SQLException:"`, skip to 10 characters past the next
`':'` found at index 14 or later; `none` models the uncaught `ValueError`
raised by `str.index` when no such `':'` exists. -/
def stripSQLException (error : Str) : Option Str :=
  if error.take 13 = pstr "SQLException:" then
    match strIndexFrom error ':' 14 with
    | some idx => some (error.drop (idx + 10))
    | none => none
  else some error

/-- The classification step of `handle_error` (mapi.py:82-85): look the first
5 characters up in the `errors` dict when the string is longer than 5
characters, defaulting to OperationalError. -/
def classifyError (err : Str) : ErrKind × Str :=
  if 5 < err.length then
    match mapiErrors.lookup (err.take 5) with
    | some k => (k, err)
    | none => (.operational, err)
  else (.operational, err)

/-- Embedding of `handle_error(error)` (mapi.py:67-85): strip the optional
`"SQLException:"` prefix, then classify.  Returns the exception class and
message; `none` models the uncaught `ValueError` from `str.index`. -/
def handle_error (error : Str) : Option (ErrKind × Str) :=
  (stripSQLException error).map classifyError

/-- Modelled from the spec: the classification table exactly as §4.G and claim
C4 word it — if the string is longer than 5 characters and its first 5
characters are one of the five SQLSTATE codes, the mapped kind, otherwise
Operational.  Used to compare `handle_error` against the specified
classifier. -/
def classifyErrorSpec (err : Str) : ErrKind × Str :=
  if 5 < err.length then
    if err.take 5 = pstr "42S02" then (.operational, err)
    else if err.take 5 = pstr "40002" then (.integrity, err)
    else if err.take 5 = pstr "2D000" then (.integrity, err)
    else if err.take 5 = pstr "40000" then (.integrity, err)
    else if err.take 5 = pstr "M0M29" then (.integrity, err)
    else (.operational, err)
  else (.operational, err)

/-- Modelled from the spec: the error classifier as §4.G and claim C4 word it,
sharing the prefix-stripping step (which the claim describes identically to
the code) and substituting the spec's five-row table for the dict lookup. -/
def handleErrorSpec (error : Str) : Option (ErrKind × Str) :=
  (stripSQLException error).map classifyErrorSpec

/-- Embedding of `HandshakeOption` (mapi.py:694-709).  The `fallback` callable
is not stored; its invocation is modelled by `connect_finish`. -/
structure HandshakeOption where
  level : Int
  name : Str
  value : Int
  sent : Bool := false
deriving DecidableEq, Repr

/-- Embedding of the hash-selection loop of `_challenge_response`
(mapi.py:477-489): walk the algorithm names; the first one the client
implements (`algos n = some f`, Python `hashlib.new` not raising) is used to
digest `password ++ salt`; `none` when no algorithm is implemented. -/
def pickHash (algos : Str → Option (Str → Str)) (names : List Str)
    (password salt : Str) : Option (Str × Str) :=
  match names with
  | [] => none
  | n :: rest =>
    match algos n with
    | some f => some (n, f (password ++ salt))
    | none => pickHash algos rest password salt

/-- Embedding of the `sql=N` scan of `_challenge_response` (mapi.py:510-516):
fold over the comma-separated parts of the options field, recording the last
`sql=N` level; a malformed level raises OperationalError. -/
def parseOptionsLevel : List Str → Int → Except MapiError Int
  | [], acc => .ok acc
  | part :: rest, acc =>
    if strStartsWith part (pstr "sql=") then
      match pyInt (part.drop 4) with
      | some v => parseOptionsLevel rest v
      | none => .error ⟨.operational, pstr "invalid sql options level in server challenge: " ++ part⟩
    else parseOptionsLevel rest acc

/-- Embedding of the option-serialization loop of `_challenge_response`
(mapi.py:517-521): every option with `level < options_level` contributes
`name=value` to the login line and is marked `sent`. -/
def markSent (options_level : Int) : List HandshakeOption → List Str × List HandshakeOption
  | [] => ([], [])
  | o :: rest =>
    let sr := markSent options_level rest
    if o.level < options_level then
      ((o.name ++ ['='] ++ intToStr o.value) :: sr.1, { o with sent := true } :: sr.2)
    else (sr.1, o :: sr.2)

/-- Result of `_challenge_response`: the response line, the handshake options
after `sent`-marking, `remaining_handshake_options`, and the recorded
`server_endian` and `binexport_level`. -/
structure ChallengeResult where
  response : Str
  updatedOptions : List HandshakeOption
  remaining : List HandshakeOption
  serverEndian : Str
  binexportLevel : Int
deriving DecidableEq, Repr

/-- Embedding of `Connection._challenge_response` (mapi.py:442-526) applied to
the already-split challenge fields (`challenge.split(':')`).  `algos` models
`hashlib`: the digest function for each algorithm name the client implements.
`callback` models `handshake_options_callback`. -/
def challenge_response_parsed (algos : Str → Option (Str → Str))
    (callback : Option (Int → List HandshakeOption))
    (targetUser targetPassword : Option Str) (language : Str) (database : Option Str)
    (challenges0 : List Str) : Except MapiError ChallengeResult :=
  if challenges0.getLastD [] ≠ [] ∨ challenges0.length < 7 then
    .error ⟨.operational, pstr "Server sent invalid challenge"⟩
  else
    let challenges := challenges0.dropLast
    let salt := challenges.getD 0 []
    let server_type := challenges.getD 1 []
    let protocol := challenges.getD 2 []
    let hashes := challenges.getD 3 []
    let endian := challenges.getD 4 []
    let user := if server_type = pstr "merovingian" then pstr "merovingian" else targetUser.getD []
    let password0 := if server_type = pstr "merovingian" then [] else targetPassword.getD []
    let serverEndianE : Except MapiError Str :=
      if endian = pstr "LIT" then .ok (pstr "little")
      else if endian = pstr "BIG" then .ok (pstr "big")
      else .error ⟨.notSupported, pstr "Unknown byte order: " ++ endian⟩
    match serverEndianE with
    | .error e => .error e
    | .ok serverEndian =>
      let passwordE : Except MapiError Str :=
        if protocol = pstr "9" then
          match algos (challenges.getD 5 []) with
          | some h => .ok (h password0)
          | none => .error ⟨.notSupported, pstr "unsupported hash type " ++ challenges.getD 5 []⟩
        else .error ⟨.notSupported, pstr "We only speak protocol v9"⟩
      match passwordE with
      | .error e => .error e
      | .ok password =>
        match pickHash algos (splitOnChar ',' hashes) password salt with
        | none => .error ⟨.notSupported,
            pstr "Unsupported hash algorithms required for login: " ++ hashes⟩
        | some (algoName, digest) =>
          let pwhash := [Char.ofNat 123] ++ algoName ++ [Char.ofNat 125] ++ digest
          let response := List.intercalate [':']
            [pstr "BIG", user, pwhash, language, database.getD []] ++ [':']
          let binexportE : Except MapiError Int :=
            if 8 ≤ challenges.length then
              let part := challenges.getD 7 []
              if strStartsWith part (pstr "BINARY=") then
                match pyInt (part.drop 7) with
                | some v => .ok v
                | none => .error ⟨.valueError, pstr "invalid literal for int(): " ++ part.drop 7⟩
              else .error ⟨.assertionError, pstr "part.startswith(BINARY=)"⟩
            else .ok 0
          match binexportE with
          | .error e => .error e
          | .ok binexport_level =>
            let handshake_options := match callback with
              | some cb => cb binexport_level
              | none => []
            if 7 ≤ challenges.length then
              match parseOptionsLevel (splitOnChar ',' (challenges.getD 6 [])) 0 with
              | .error e => .error e
              | .ok options_level =>
                let sr := markSent options_level handshake_options
                .ok { response := response ++ pstr "FILETRANS:"
                        ++ List.intercalate [','] sr.1 ++ [':'],
                      updatedOptions := sr.2,
                      remaining := sr.2.filter (fun o => !o.sent),
                      serverEndian := serverEndian, binexportLevel := binexport_level }
            else
              .ok { response := response,
                    updatedOptions := handshake_options,
                    remaining := handshake_options.filter (fun o => !o.sent),
                    serverEndian := serverEndian, binexportLevel := binexport_level }

/-- Embedding of `Connection._challenge_response` on the raw challenge string:
split on `':'` and process the fields. -/
def challenge_response (algos : Str → Option (Str → Str))
    (callback : Option (Int → List HandshakeOption))
    (targetUser targetPassword : Option Str) (language : Str) (database : Option Str)
    (challenge : Str) : Except MapiError ChallengeResult :=
  challenge_response_parsed algos callback targetUser targetPassword language database
    (splitOnChar ':' challenge)

/-- Model of the fallback pass at the end of `Connection.connect`
(mapi.py:180-183): once the state is READY, `opt.fallback(opt.value)` is
invoked for each remaining handshake option in list order.  Each invocation is
recorded as the pair (option name, option value). -/
def connect_finish (remaining : List HandshakeOption) : List (Str × Int) :=
  remaining.map (fun o => (o.name, o.value))

/-- Model of the redirect loop of `Connection.connect` (mapi.py:137-176) for a
non-control connection: `login i` is the outcome of the i-th `_login` attempt
(`false` meaning a redirect that requires another round).  The Python
`for i in range(10): ... else: raise OperationalError("too many redirects")`
is an iteration budget of 10 starting at attempt 0. -/
def connect_loop_from (login : Nat → Bool) : Nat → Nat → Except MapiError Nat
  | _, 0 => .error ⟨.operational, pstr "too many redirects"⟩
  | i, fuel + 1 => if login i then .ok i else connect_loop_from login (i + 1) fuel

/-- The whole redirect loop: at most 10 iterations starting from attempt 0;
returns the index of the successful attempt. -/
def connect_redirects (login : Nat → Bool) : Except MapiError Nat :=
  connect_loop_from login 0 10

/-- Connection state relevant to `_sabotage`, `cmd` and `binary_cmd`: the FSM
state and whether a socket is attached. -/
structure Conn where
  state : Nat
  socket : Option Unit
deriving DecidableEq, Repr

/-- Python `b"ERROR\x80ERROR"` (mapi.py:360): invalid utf-8 and too small. -/
def ERROR_BODY : List Nat := [69, 82, 82, 79, 82, 128, 69, 82, 82, 79, 82]

/-- Embedding of `Connection._sabotage` (mapi.py:352-367): detach the socket,
reset the state to INIT, and, if a socket was attached, send the 2-byte
little-endian header `2 * 8193` (larger than any legal block header) followed
by `ERROR_BODY`, swallowing I/O errors.  Returns the new connection state and
the bytes whose transmission was attempted. -/
def sabotage (c : Conn) : Conn × List Nat :=
  let c' : Conn := { state := STATE_INIT, socket := none }
  match c.socket with
  | none => (c', [])
  | some _ => (c', le16 (2 * 8193 + 0) ++ ERROR_BODY)

/-- Embedding of `Connection.cmd(operation)` (mapi.py:369-412).  The server's
side of the conversation is modelled by `responses`, the successive decoded
blocks `_getblock_and_transfer_files` returns (the `MSG_MORE` branch issues a
nested `cmd("")` consuming the next response); an exhausted list models the
server closing the connection.  The result is the returned value (`none` for
Python's implicit `return None`) paired with the list of messages logged at
info level. -/
def cmd (state : Nat) (is_raw_control : Bool) : List Str →
    Except MapiError (Option Str × List Str)
  | [] =>
    if state ≠ STATE_READY then .error ⟨.programming, pstr "Not connected"⟩
    else .error ⟨.brokenPipe, pstr "Server closed connection"⟩
  | response :: rest =>
    if state ≠ STATE_READY then .error ⟨.programming, pstr "Not connected"⟩
    else if response.length = 0 then .ok (some [], [])
    else if strStartsWith response MSG_OK then .ok (some (strip (response.drop 3)), [])
    else if response = MSG_MORE then cmd state is_raw_control rest
    else if response.take 2 = MSG_QUPDATE ∧
        (splitOnChar '\n' response).any (fun l => strStartsWith l [MSG_ERROR]) then
      match (splitOnChar '\n' response).find? (fun l => strStartsWith l [MSG_ERROR]) with
      | some line =>
        (match handle_error (line.drop 1) with
         | some km => .error ⟨km.1, km.2⟩
         | none => .error ⟨.valueError, pstr "substring not found"⟩)
      | none => .error ⟨.internalError, pstr "unreachable"⟩
    else if response.headD ' ' = MSG_Q ∨ response.headD ' ' = MSG_HEADER ∨
        response.headD ' ' = MSG_TUPLE then
      .ok (some response, [])
    else if response.headD ' ' = MSG_ERROR then
      match handle_error (response.drop 1) with
      | some km => .error ⟨km.1, km.2⟩
      | none => .error ⟨.valueError, pstr "substring not found"⟩
    else if response.headD ' ' = MSG_INFO then
      .ok (none, [response.drop 1])
    else if is_raw_control then
      if strStartsWith response (pstr "OK") then .ok (some (strip (response.drop 2)), [])
      else .ok (some response, [])
    else .error ⟨.programming, pstr "unknown state: " ++ response⟩

/-- Model of Python `str(bytes, 'utf-8')`: UTF-8 decoding, `none` when the
bytes are invalid (Python raises UnicodeDecodeError). -/
def utf8Decode (bytes : List Nat) : Option Str :=
  (String.fromUTF8? (ByteArray.mk ((bytes.map (fun b => UInt8.ofNat b)).toArray))).map
    String.toList

/-- Embedding of `Connection.binary_cmd(operation)` (mapi.py:414-440): require
READY, read one raw block from `stream`, and if it starts with `b"!"`, decode
the first line and raise the classified error; otherwise return the block. -/
def binary_cmd (state : Nat) (stream : List Nat) : Except MapiError (List Nat) :=
  if state ≠ STATE_READY then .error ⟨.programming, pstr "Not connected"⟩
  else match getblock_raw stream with
  | .error e => .error e
  | .ok (view, _) =>
    if view.take 1 = [33] then
      let msg_bytes :=
        match view.findIdx? (fun b => b == 10) with
        | some idx => if 0 < idx then (view.drop 1).take idx else view
        | none => view
      match utf8Decode msg_bytes with
      | none => .error ⟨.unicodeDecodeError, pstr "invalid utf-8"⟩
      | some s =>
        match handle_error s with
        | some km => .error ⟨km.1, km.2⟩
        | none => .error ⟨.valueError, pstr "substring not found"⟩
    else .ok view

/-- Example digest function standing in for SHA-512 in concrete witnesses. -/
def h512ex : Str → Str := fun s => pstr "A<" ++ s ++ pstr ">"

/-- Example digest function standing in for SHA-256 in concrete witnesses. -/
def h256ex : Str → Str := fun s => pstr "B<" ++ s ++ pstr ">"

/-- Example hash registry implementing exactly SHA512 and SHA256, used to
instantiate the challenge-response theorems on concrete inputs. -/
def algosEx : Str → Option (Str → Str) := fun n =>
  if n = pstr "SHA512" then some h512ex
  else if n = pstr "SHA256" then some h256ex else none

/-- Example digest function for the handshake-options witness. -/
def hC8 : Str → Str := fun s => pstr "H" ++ s

/-- Example hash registry implementing exactly MD5, for the handshake-options
witness. -/
def algosC8 : Str → Option (Str → Str) := fun n =>
  if n = pstr "MD5" then some hC8 else none

/-- Example handshake options (levels 1 and 9) for the handshake-options
witness. -/
def optsC8 : List HandshakeOption :=
  [⟨1, pstr "auto_commit", 1, false⟩, ⟨9, pstr "reply_size", 100, false⟩]

/-! Helper lemmas about the framing layer. -/

theorem get_minor_block_encode (bit : Nat) (data rest : List Nat)
    (hle : data.length ≤ MAX_PACKAGE_LENGTH) (hbit : bit ≤ 1) :
    get_minor_block (le16 ((data.length <<< 1) + bit) ++ data ++ rest)
      = .ok (data, bit == 1, rest) := by
  have hMAX : MAX_PACKAGE_LENGTH = 8190 := rfl
  rw [hMAX] at hle
  have hv : (data.length <<< 1) + bit = 2 * data.length + bit := by
    rw [Nat.shiftLeft_eq]; ring
  rw [hv]
  set v := 2 * data.length + bit with hvdef
  have hv65536 : v < 65536 := by omega
  simp only [le16, List.cons_append, List.nil_append, get_minor_block, getbytes]
  rw [if_pos (by simp only [List.length_cons]; omega)]
  simp only [List.take_succ_cons, List.take_zero, List.drop_succ_cons, List.drop_zero,
    List.getD_cons_zero, List.getD_cons_succ]
  have hunp : v % 256 + 256 * (v / 256 % 256) = v := by omega
  rw [hunp]
  have hshift : v >>> 1 = data.length := by
    rw [Nat.shiftRight_eq_div_pow]; omega
  have hand : v &&& 1 = bit := by
    rw [Nat.and_one_is_mod]; omega
  rw [hshift, hand]
  rw [if_pos (by simp only [List.length_append]; omega)]
  rw [List.take_left, List.drop_left]

theorem getbytes_error {stream : List Nat} {count : Nat} {e : MapiError}
    (h : getbytes stream count = .error e) :
    e = ⟨.brokenPipe, pstr "Server closed connection"⟩ := by
  unfold getbytes at h
  split at h
  · cases h
  · cases h; rfl

theorem get_minor_block_error {stream : List Nat} {e : MapiError}
    (h : get_minor_block stream = .error e) :
    e = ⟨.brokenPipe, pstr "Server closed connection"⟩ := by
  unfold get_minor_block at h
  split at h
  next heq => cases h; exact getbytes_error heq
  next hdr rest heq =>
    split at h
    next heq2 => cases h; exact getbytes_error heq2
    next => cases h

theorem get_minor_block_sizes {stream payload : List Nat} {last : Bool} {rest : List Nat}
    (h : get_minor_block stream = .ok (payload, last, rest)) :
    rest.length < stream.length := by
  unfold get_minor_block at h
  split at h
  next heq => cases h
  next hdr rest1 heq =>
    split at h
    next => cases h
    next payload1 rest2 heq2 =>
      cases h
      unfold getbytes at heq heq2
      split at heq
      next hc =>
        cases heq
        split at heq2
        next hc2 =>
          cases heq2
          simp only [List.length_drop] at hc2 ⊢
          omega
        next => cases heq2
      next => cases heq

/-- Claim C1: writing any payload as a framed message with finish=true and
reading the framed byte stream back yields exactly the payload (any trailing
bytes of the stream are left unconsumed). -/
theorem c1_putblock_getblock_roundtrip (P rest : List Nat) :
    getblock_raw (putblock_raw P true ++ rest) = .ok (P, rest) := by
  by_cases h : (P.take MAX_PACKAGE_LENGTH).length < MAX_PACKAGE_LENGTH
  case pos =>
    have hlen : P.length < MAX_PACKAGE_LENGTH := by
      simp only [List.length_take] at h
      omega
    have hP : P.take MAX_PACKAGE_LENGTH = P := List.take_of_length_le (le_of_lt hlen)
    rw [putblock_raw, dif_pos h, hP]
    have hift : (if (true = true) then (1 : Nat) else 0) = 1 := rfl
    rw [hift]
    have henc := get_minor_block_encode 1 P rest (le_of_lt hlen) le_rfl
    rw [getblock_raw.eq_def]
    split
    next heq =>
      rw [henc] at heq
      cases heq
    next p l r heq =>
      rw [henc] at heq
      cases heq
      simp
  case neg =>
    have hlen : MAX_PACKAGE_LENGTH ≤ P.length := by
      simp only [List.length_take] at h
      omega
    have htake : (P.take MAX_PACKAGE_LENGTH).length = MAX_PACKAGE_LENGTH := by
      simp only [List.length_take]
      omega
    rw [putblock_raw, dif_neg h]
    rw [List.append_assoc]
    have henc := get_minor_block_encode 0 (P.take MAX_PACKAGE_LENGTH)
      (putblock_raw (P.drop MAX_PACKAGE_LENGTH) true ++ rest) (le_of_eq htake) (by omega)
    rw [Nat.add_zero] at henc
    have hrec := c1_putblock_getblock_roundtrip (P.drop MAX_PACKAGE_LENGTH) rest
    rw [getblock_raw.eq_def]
    split
    next heq =>
      rw [henc] at heq
      cases heq
    next p l r heq =>
      rw [henc] at heq
      cases heq
      have h01 : (((0 : Nat) == 1) = true) = False := by simp
      simp only [h01, if_false]
      rw [hrec]
      simp [List.take_append_drop]
  termination_by P.length
  decreasing_by
    simp only [List.length_take] at h
    simp only [List.length_drop]
    have : MAX_PACKAGE_LENGTH = 8190 := rfl
    omega

/-- Full-chunk serialization shape: when the payload length is an exact
multiple of `MAX_PACKAGE_LENGTH`, the serialized finish-true form is the
full-size chunks, each under the header `MAX_PACKAGE_LENGTH <<< 1` (last bit
clear), followed by the 2-byte header of value 1: the zero-length final block
with the last bit set. -/
theorem putblock_raw_multiple (P : List Nat) (h : P.length % MAX_PACKAGE_LENGTH = 0) :
    putblock_raw P true
      = ((chunkList P).map (fun c => le16 (MAX_PACKAGE_LENGTH <<< 1) ++ c)).flatten
        ++ le16 1 := by
  have hMAX : MAX_PACKAGE_LENGTH = 8190 := rfl
  by_cases hnil : P = []
  case pos =>
    subst hnil
    rw [putblock_raw, dif_pos (by simp [MAX_PACKAGE_LENGTH])]
    rw [chunkList, if_pos rfl]
    simp only [List.take_nil, List.length_nil, List.map_nil, List.flatten_nil,
      List.nil_append, List.append_nil]
    rfl
  case neg =>
    rw [hMAX] at h
    have hlen0 : P.length ≠ 0 := by
      simpa using hnil
    have hge : MAX_PACKAGE_LENGTH ≤ P.length := by
      rw [hMAX]
      omega
    have htake : (P.take MAX_PACKAGE_LENGTH).length = MAX_PACKAGE_LENGTH := by
      simp only [List.length_take]
      omega
    have hnotlt : ¬ (P.take MAX_PACKAGE_LENGTH).length < MAX_PACKAGE_LENGTH := by
      omega
    rw [putblock_raw, dif_neg hnotlt, htake]
    rw [chunkList, if_neg (by simpa using hnil)]
    have hdroplen : (P.drop MAX_PACKAGE_LENGTH).length % MAX_PACKAGE_LENGTH = 0 := by
      simp only [List.length_drop, hMAX]
      omega
    rw [putblock_raw_multiple (P.drop MAX_PACKAGE_LENGTH) hdroplen]
    simp [List.append_assoc]
  termination_by P.length
  decreasing_by
    simp only [List.length_drop]
    have hM : MAX_PACKAGE_LENGTH = 8190 := rfl
    have hlen0 : P.length ≠ 0 := by
      simpa using hnil
    rw [hM]
    omega

theorem chunkList_full_lengths (P : List Nat) (h : P.length % MAX_PACKAGE_LENGTH = 0) :
    ∀ c ∈ chunkList P, c.length = MAX_PACKAGE_LENGTH := by
  have hMAX : MAX_PACKAGE_LENGTH = 8190 := rfl
  intro c hc
  rw [chunkList] at hc
  split at hc
  · cases hc
  · rename_i hnil
    have hne : P ≠ [] := by
      intro hP
      rw [hP] at hnil
      simp at hnil
    have hlen0 : P.length ≠ 0 := by simpa using hne
    have hge : MAX_PACKAGE_LENGTH ≤ P.length := by
      rw [hMAX] at h ⊢
      omega
    rw [List.mem_cons] at hc
    rcases hc with hc | hc
    · subst hc
      simp only [List.length_take]
      omega
    · have hdroplen : (P.drop MAX_PACKAGE_LENGTH).length % MAX_PACKAGE_LENGTH = 0 := by
        simp only [List.length_drop, hMAX]
        rw [hMAX] at h
        omega
      exact chunkList_full_lengths (P.drop MAX_PACKAGE_LENGTH) hdroplen c hc
  termination_by P.length
  decreasing_by
    simp only [List.length_drop]
    have hM : MAX_PACKAGE_LENGTH = 8190 := rfl
    rw [hM] at hge ⊢
    omega

/-- Claim C7: a nonempty payload whose length is an exact multiple of 8190,
written with finish=true, serializes as full-length 8190-byte chunks whose
headers (value `8190 <<< 1`) have the last bit clear, followed by a trailing
zero-length minor block whose 2-byte header has value 1 (last bit set). -/
theorem c7_multiple_trailing_block (P : List Nat)
    (hmod : P.length % 8190 = 0) (hpos : 0 < P.length) :
    putblock_raw P true
      = ((chunkList P).map (fun c => le16 (MAX_PACKAGE_LENGTH <<< 1) ++ c)).flatten
        ++ le16 1
    ∧ (∀ c ∈ chunkList P, c.length = 8190)
    ∧ le16 1 = [1, 0]
    ∧ (MAX_PACKAGE_LENGTH <<< 1) &&& 1 = 0 := by
  have hmod' : P.length % MAX_PACKAGE_LENGTH = 0 := hmod
  refine ⟨putblock_raw_multiple P hmod', ?_, by decide, by decide⟩
  exact chunkList_full_lengths P hmod'

/-- Witness for C7 at the concrete payload of 8190 zero bytes. -/
theorem c7_witness :
    ((List.replicate 8190 0).length % 8190 = 0 ∧ 0 < (List.replicate 8190 0).length)
    ∧ (putblock_raw (List.replicate 8190 0) true
        = ((chunkList (List.replicate 8190 0)).map
            (fun c => le16 (MAX_PACKAGE_LENGTH <<< 1) ++ c)).flatten ++ le16 1) := by
  have h1 : (List.replicate 8190 (0 : Nat)).length % 8190 = 0 := by
    rw [List.length_replicate, Nat.mod_self]
  have h2 : 0 < (List.replicate 8190 (0 : Nat)).length := by
    rw [List.length_replicate]
    omega
  exact ⟨⟨h1, h2⟩, (c7_multiple_trailing_block _ h1 h2).1⟩

/-- Counterexample to C3 as stated: at the concrete input of an exhausted
socket (empty stream) and a 2-byte header read, the failure is a
BrokenPipeError, not an Interface-kind error. -/
theorem c3_counterexample :
    getbytes [] 2 = .error ⟨.brokenPipe, pstr "Server closed connection"⟩
    ∧ ErrKind.brokenPipe ≠ ErrKind.interfaceError := by
  constructor
  · rfl
  · decide

/-- Claim C3 (amended): whenever a socket read performed while reading a minor
block cannot be satisfied (the server closed the connection), the failure is a
`BrokenPipeError` carrying the message "Server closed connection"; every error
produced by the block-read loop is that same error. -/
theorem getblock_raw_eq_error {stream : List Nat} {e' : MapiError}
    (hm : get_minor_block stream = .error e') :
    getblock_raw stream = .error e' := by
  rw [getblock_raw.eq_def]
  split
  next heq => rw [hm] at heq; cases heq; rfl
  next p' l' r' heq => rw [hm] at heq; cases heq

theorem getblock_raw_eq_last {stream p : List Nat} {r : List Nat}
    (hm : get_minor_block stream = .ok (p, true, r)) :
    getblock_raw stream = .ok (p, r) := by
  rw [getblock_raw.eq_def]
  split
  next heq => rw [hm] at heq; cases heq
  next p' l' r' heq =>
    rw [hm] at heq
    cases heq
    rfl

theorem getblock_raw_eq_cont {stream p : List Nat} {r : List Nat}
    (hm : get_minor_block stream = .ok (p, false, r)) :
    getblock_raw stream =
      match getblock_raw r with
      | .error e => .error e
      | .ok (p2, r2) => .ok (p ++ p2, r2) := by
  rw [getblock_raw.eq_def]
  split
  next heq => rw [hm] at heq; cases heq
  next p' l' r' heq =>
    rw [hm] at heq
    cases heq
    simp

theorem getblock_raw_error (stream : List Nat) (e : MapiError)
    (h : getblock_raw stream = .error e) :
    e = ⟨.brokenPipe, pstr "Server closed connection"⟩ := by
  cases hm : get_minor_block stream with
  | error e' =>
    rw [getblock_raw_eq_error hm] at h
    cases h
    exact get_minor_block_error hm
  | ok t =>
    obtain ⟨p, l, r⟩ := t
    cases l
    case true =>
      rw [getblock_raw_eq_last hm] at h
      cases h
    case false =>
      rw [getblock_raw_eq_cont hm] at h
      cases hrec : getblock_raw r with
      | error e'' =>
        rw [hrec] at h
        simp only [Except.error.injEq] at h
        subst h
        exact getblock_raw_error r _ hrec
      | ok pr =>
        obtain ⟨p2, r2⟩ := pr
        rw [hrec] at h
        cases h
  termination_by stream.length
  decreasing_by
    exact get_minor_block_sizes hm

/-- Claim C3 (amended): whenever a socket read performed while reading a minor
block cannot be satisfied (the server closed the connection), the failure is a
`BrokenPipeError` carrying the message "Server closed connection"; every error
produced by the block-read loop is that same error. -/
theorem c3_broken_pipe :
    (∀ (stream : List Nat) (count : Nat), stream.length < count →
      getbytes stream count = .error ⟨.brokenPipe, pstr "Server closed connection"⟩)
    ∧ (∀ (stream : List Nat) (e : MapiError), getblock_raw stream = .error e →
        e = ⟨.brokenPipe, pstr "Server closed connection"⟩) := by
  constructor
  · intro stream count hlt
    unfold getbytes
    rw [if_neg (by omega)]
  · exact getblock_raw_error

/-- Witness for C3 (amended), at the concrete short stream `[5]` with a
requested count of 3. -/
theorem c3_witness :
    getbytes [5] 3 = .error ⟨.brokenPipe, pstr "Server closed connection"⟩ :=
  c3_broken_pipe.1 [5] 3 (by decide)

/-! Error classifier: claims C4 and C10. -/

/-- Claim C4: `handle_error` agrees everywhere with the classifier exactly as
the spec words it (strip the optional "SQLException:" prefix by skipping to 10
characters past the next ':' at index >= 14, then map the first 5 characters
through the SQLSTATE table when the remainder is longer than 5 characters,
defaulting to Operational); in particular "40002!unique violation" classifies
as Integrity. -/
theorem classifyError_eq_spec (err : Str) : classifyError err = classifyErrorSpec err := by
  unfold classifyError classifyErrorSpec
  by_cases h5 : 5 < err.length
  · rw [if_pos h5, if_pos h5]
    by_cases h1 : err.take 5 = pstr "42S02"
    · rw [h1, if_pos rfl,
        show List.lookup (pstr "42S02") mapiErrors = some ErrKind.operational from by decide]
    · rw [if_neg h1]
      by_cases h2 : err.take 5 = pstr "40002"
      · rw [h2, if_pos rfl,
          show List.lookup (pstr "40002") mapiErrors = some ErrKind.integrity from by decide]
      · rw [if_neg h2]
        by_cases h3 : err.take 5 = pstr "2D000"
        · rw [h3, if_pos rfl,
            show List.lookup (pstr "2D000") mapiErrors = some ErrKind.integrity from by decide]
        · rw [if_neg h3]
          by_cases h4 : err.take 5 = pstr "40000"
          · rw [h4, if_pos rfl,
              show List.lookup (pstr "40000") mapiErrors = some ErrKind.integrity from by
                decide]
          · rw [if_neg h4]
            by_cases hm : err.take 5 = pstr "M0M29"
            · rw [hm, if_pos rfl,
                show List.lookup (pstr "M0M29") mapiErrors = some ErrKind.integrity from by
                  decide]
            · rw [if_neg hm]
              have hnone : List.lookup (err.take 5) mapiErrors = none := by
                simp [mapiErrors, List.lookup, beq_eq_decide, h1, h2, h3, h4, hm]
              rw [hnone]
  · rw [if_neg h5, if_neg h5]

theorem c4_handle_error_classifier :
    (∀ E : Str, handle_error E = handleErrorSpec E)
    ∧ handle_error (pstr "40002!unique violation")
        = some (.integrity, pstr "40002!unique violation") := by
  constructor
  · intro E
    unfold handle_error handleErrorSpec
    cases stripSQLException E with
    | none => rfl
    | some err =>
      simp only [Option.map_some']
      rw [classifyError_eq_spec]
  · decide

/-- Claim C10: `handle_error` is total on every string that, when it starts
with "SQLException:", contains a ':' at index 14 or later; under that
precondition the colon search of the prefix stripping cannot fail. -/
theorem c10_handle_error_total (E : Str)
    (h : E.take 13 = pstr "SQLException:" → ':' ∈ E.drop 14) :
    (handle_error E).isSome = true := by
  unfold handle_error
  rw [Option.isSome_map']
  unfold stripSQLException
  by_cases hpre : E.take 13 = pstr "SQLException:"
  · rw [if_pos hpre]
    have hmem := h hpre
    cases hidx : (E.drop 14).findIdx? (fun a => a == ':') with
    | none =>
      exfalso
      have hall := List.findIdx?_eq_none_iff.mp hidx
      have := hall ':' hmem
      simp at this
    | some i =>
      have hsi : strIndexFrom E ':' 14 = some (14 + i) := by
        unfold strIndexFrom
        rw [hidx]
      rw [hsi]
      rfl
  · rw [if_neg hpre]
    rfl

/-- Witness for C10 at a concrete string with the "SQLException:" prefix and a
colon at index 15. -/
theorem c10_witness :
    ((pstr "SQLException:ab:cdefghijk").take 13 = pstr "SQLException:"
      → ':' ∈ (pstr "SQLException:ab:cdefghijk").drop 14)
    ∧ (handle_error (pstr "SQLException:ab:cdefghijk")).isSome = true :=
  ⟨by decide, c10_handle_error_total _ (by decide)⟩

/-! Redirect loop: claim C5. -/

theorem connect_loop_from_all_false (login : Nat → Bool) :
    ∀ (fuel i : Nat), (∀ j, j < fuel → login (i + j) = false) →
      connect_loop_from login i fuel = .error ⟨.operational, pstr "too many redirects"⟩ := by
  intro fuel
  induction fuel with
  | zero => intro i _; rfl
  | succ n ih =>
    intro i hall
    have h0 : login i = false := by simpa using hall 0 (by omega)
    simp only [connect_loop_from, h0, Bool.false_eq_true, if_false]
    refine ih (i + 1) (fun j hj => ?_)
    have := hall (j + 1) (by omega)
    rwa [show i + (j + 1) = i + 1 + j by omega] at this

/-- Claim C5: the connect sequence attempts the login loop at most 10 times —
whenever the first 10 login attempts all end in a redirect, the loop raises
`OperationalError("too many redirects")` regardless of any later attempt, so
11 chained redirects fail with that error. -/
theorem c5_too_many_redirects (login : Nat → Bool)
    (h : ∀ i, i < 10 → login i = false) :
    connect_redirects login = .error ⟨.operational, pstr "too many redirects"⟩ := by
  unfold connect_redirects
  refine connect_loop_from_all_false login 10 0 (fun j hj => ?_)
  simpa using h j hj

/-- Witness for C5: a server issuing 11 chained redirects (every attempt
before the 11th redirects, and the loop never reaches an 11th attempt). -/
theorem c5_witness :
    (∀ i, i < 10 → (fun k => decide (11 ≤ k)) i = false)
    ∧ connect_redirects (fun k => decide (11 ≤ k))
        = .error ⟨.operational, pstr "too many redirects"⟩ :=
  ⟨by decide, c5_too_many_redirects _ (by decide)⟩

/-! Sabotage and the READY guard: claim C6. -/

/-- Counterexample to C6 as stated: the sabotage frame is 13 bytes — a 2-byte
header (Python `struct.pack('<H', ...)`) plus the 11-byte body — so it is not
a 4-byte header followed by the body "ERROR\x80ERROR" (which would be 15
bytes). -/
theorem c6_counterexample :
    ¬ ∃ hdr : List Nat, hdr.length = 4
      ∧ (sabotage ⟨STATE_READY, some ()⟩).2 = hdr ++ ERROR_BODY := by
  rintro ⟨hdr, h4, heq⟩
  have hlen : ((sabotage ⟨STATE_READY, some ()⟩).2).length = 13 := rfl
  rw [heq] at hlen
  rw [List.length_append, h4] at hlen
  simp [ERROR_BODY] at hlen

/-- Claim C6 (amended): `sabotage()` on a READY connection with a socket emits
the 2-byte little-endian header of value 2*8193 = 16386 — greater than
(8190<<1)+1 = 16381 — followed by the body "ERROR\x80ERROR", closes the
socket (I/O errors swallowed), leaves the state INIT with no socket, and any
subsequent `cmd` or `binary_cmd` in that non-READY state raises
`ProgrammingError("Not connected")`. -/
theorem c6_sabotage (c : Conn) (hst : c.state = STATE_READY)
    (hsock : c.socket = some ()) :
    (sabotage c).2 = le16 (2 * 8193) ++ ERROR_BODY
    ∧ (sabotage c).2.take 2 = [2, 64]
    ∧ 2 + 256 * 64 = 16386 ∧ (8190 <<< 1) + 1 < 16386
    ∧ (sabotage c).1.state = STATE_INIT
    ∧ (sabotage c).1.socket = none
    ∧ (∀ (rc : Bool) (responses : List Str),
        cmd (sabotage c).1.state rc responses
          = .error ⟨.programming, pstr "Not connected"⟩)
    ∧ (∀ stream : List Nat,
        binary_cmd (sabotage c).1.state stream
          = .error ⟨.programming, pstr "Not connected"⟩) := by
  obtain ⟨st, sock⟩ := c
  have hsock' : sock = some () := hsock
  subst hsock'
  have hsab : sabotage ⟨st, some ()⟩
      = (⟨STATE_INIT, none⟩, le16 (2 * 8193 + 0) ++ ERROR_BODY) := rfl
  rw [hsab]
  refine ⟨rfl, by decide, by decide, by decide, rfl, rfl, ?_, ?_⟩
  · intro rc responses
    show cmd STATE_INIT rc responses = _
    cases responses with
    | nil =>
      simp only [cmd]
      rw [if_pos (show (STATE_INIT : Nat) ≠ STATE_READY by decide)]
    | cons r rest =>
      simp only [cmd]
      rw [if_pos (show (STATE_INIT : Nat) ≠ STATE_READY by decide)]
  · intro stream
    show binary_cmd STATE_INIT stream = _
    unfold binary_cmd
    rw [if_pos (show (STATE_INIT : Nat) ≠ STATE_READY by decide)]

/-- Witness for C6 (amended) at a concrete READY connection. -/
theorem c6_witness :
    ((⟨STATE_READY, some ()⟩ : Conn).state = STATE_READY
      ∧ (⟨STATE_READY, some ()⟩ : Conn).socket = some ())
    ∧ (sabotage ⟨STATE_READY, some ()⟩).2 = le16 (2 * 8193) ++ ERROR_BODY
    ∧ (sabotage ⟨STATE_READY, some ()⟩).1.state = STATE_INIT :=
  ⟨⟨rfl, rfl⟩, (c6_sabotage _ rfl rfl).1, (c6_sabotage _ rfl rfl).2.2.2.2.1⟩

/-! The '#' information response in `cmd`: claim C9. -/

/-- Counterexample to C9 as stated: on the info response "#hello" a READY
`cmd` logs "hello" but returns Python None (the dispatch chain falls through
without a return statement), not the empty string. -/
theorem c9_counterexample :
    cmd STATE_READY false [pstr "#hello"] ≠ .ok (some (pstr ""), [pstr "hello"]) := by
  intro hcontra
  have heval : cmd STATE_READY false [pstr "#hello"] = .ok (none, [pstr "hello"]) := by rfl
  rw [heval] at hcontra
  exact absurd hcontra (by simp)

/-- Claim C9 (amended): for a READY connection, a response whose first byte is
'#' and which matches none of the earlier dispatch cases (empty, "=OK" start,
MORE sentinel, "&2" update with an error line, first byte among '&', '%', '[')
makes `cmd` log the information message — the response without its first
byte — and return Python None (no value), rather than an empty string. -/
theorem c9_info_logs_and_returns_none (response : Str) (rest : List Str) (rc : Bool)
    (hhash : response.headD ' ' = MSG_INFO)
    (hne : response.length ≠ 0)
    (hok : strStartsWith response MSG_OK = false)
    (hmore : response ≠ MSG_MORE)
    (hupd : ¬(response.take 2 = MSG_QUPDATE
        ∧ (splitOnChar '\n' response).any (fun l => strStartsWith l [MSG_ERROR]) = true)) :
    cmd STATE_READY rc (response :: rest) = .ok (none, [response.drop 1]) := by
  simp only [cmd]
  rw [if_neg (show ¬(STATE_READY ≠ STATE_READY) by simp)]
  rw [if_neg hne]
  rw [if_neg (by simp [hok])]
  rw [if_neg hmore]
  rw [if_neg hupd]
  rw [if_neg (show ¬(response.headD ' ' = MSG_Q ∨ response.headD ' ' = MSG_HEADER
      ∨ response.headD ' ' = MSG_TUPLE) by rw [hhash]; decide)]
  rw [if_neg (show ¬(response.headD ' ' = MSG_ERROR) by rw [hhash]; decide)]
  rw [if_pos hhash]

/-- Witness for C9 (amended) at the concrete response "#hello". -/
theorem c9_witness :
    cmd STATE_READY false [pstr "#hello"] = .ok (none, [(pstr "#hello").drop 1]) :=
  c9_info_logs_and_returns_none (pstr "#hello") [] false (by decide) (by decide)
    (by decide) (by decide) (by decide)

/-! Challenge response and handshake options: claims C2 and C8. -/

theorem markSent_eq (N : Int) (opts : List HandshakeOption) :
    markSent N opts
      = ((opts.filter (fun o => decide (o.level < N))).map
          (fun o => o.name ++ ['='] ++ intToStr o.value),
         opts.map (fun o => if o.level < N then { o with sent := true } else o)) := by
  induction opts with
  | nil => rfl
  | cons o t ih => by_cases h : o.level < N <;> simp [markSent, ih, h]

theorem pickHash_none (algos : Str → Option (Str → Str)) (pw salt : Str) :
    ∀ names : List Str, (∀ n ∈ names, algos n = none) →
      pickHash algos names pw salt = none := by
  intro names
  induction names with
  | nil => intro _; rfl
  | cons n t ih =>
    intro h
    have hn := h n (by simp)
    simp only [pickHash, hn]
    exact ih (fun x hx => h x (by simp [hx]))

theorem filter_map_upd (N : Int) :
    ∀ opts : List HandshakeOption, (∀ o ∈ opts, o.sent = false) →
      ((opts.map (fun o => if o.level < N then { o with sent := true } else o)).filter
        (fun o => !o.sent)) = opts.filter (fun o => !decide (o.level < N)) := by
  intro opts
  induction opts with
  | nil => intro _; rfl
  | cons o t ih =>
    intro h
    have ho : o.sent = false := h o (by simp)
    have ht : ∀ x ∈ t, x.sent = false := fun x hx => h x (by simp [hx])
    by_cases hl : o.level < N <;> simp [hl, ho, ih ht]

/-- Behaviour of `_challenge_response` on a six-field challenge (no options
field): the login line is built from the picked hash and no FILETRANS section
is appended. -/
theorem challenge_response_parsed_six
    (algos : Str → Option (Str → Str)) (u p lang db salt st hashes pwalgo : Str)
    (hf : Str → Str) (an dg : Str)
    (hst : st ≠ pstr "merovingian")
    (hpw : algos pwalgo = some hf)
    (hpick : pickHash algos (splitOnChar ',' hashes) (hf p) salt = some (an, dg)) :
    challenge_response_parsed algos none (some u) (some p) lang (some db)
      [salt, st, pstr "9", hashes, pstr "LIT", pwalgo, []]
      = .ok { response := List.intercalate [':']
                [pstr "BIG", u, [Char.ofNat 123] ++ an ++ [Char.ofNat 125] ++ dg, lang, db]
                ++ [':'],
              updatedOptions := [], remaining := [],
              serverEndian := pstr "little", binexportLevel := 0 } := by
  simp [challenge_response_parsed, hst, hpw, hpick]

/-- Behaviour of `_challenge_response` on a seven-field challenge whose
options field parses to the level `N`: the FILETRANS section carries the
`markSent`-serialized options and `remaining_handshake_options` keeps the
unsent ones. -/
theorem challenge_response_parsed_seven
    (algos : Str → Option (Str → Str)) (cb : Int → List HandshakeOption)
    (u p lang db salt st hashes pwalgo flags : Str)
    (hf : Str → Str) (an dg : Str) (N : Int)
    (hst : st ≠ pstr "merovingian")
    (hpw : algos pwalgo = some hf)
    (hpick : pickHash algos (splitOnChar ',' hashes) (hf p) salt = some (an, dg))
    (hlvl : parseOptionsLevel (splitOnChar ',' flags) 0 = .ok N) :
    challenge_response_parsed algos (some cb) (some u) (some p) lang (some db)
      [salt, st, pstr "9", hashes, pstr "LIT", pwalgo, flags, []]
      = .ok { response := List.intercalate [':']
                [pstr "BIG", u, [Char.ofNat 123] ++ an ++ [Char.ofNat 125] ++ dg, lang, db]
                ++ [':'] ++ pstr "FILETRANS:"
                ++ List.intercalate [','] (markSent N (cb 0)).1 ++ [':'],
              updatedOptions := (markSent N (cb 0)).2,
              remaining := ((markSent N (cb 0)).2).filter (fun o => !o.sent),
              serverEndian := pstr "little", binexportLevel := 0 } := by
  simp [challenge_response_parsed, hst, hpw, hpick, hlvl]

theorem intercalate_response_flat (X : Str) :
    List.intercalate [':']
        [pstr "BIG", pstr "monetdb", [Char.ofNat 123] ++ pstr "SHA256" ++ [Char.ofNat 125] ++ X,
         pstr "sql", pstr "demo"] ++ [':']
      = pstr "BIG:monetdb:" ++ [Char.ofNat 123] ++ pstr "SHA256" ++ [Char.ofNat 125] ++ X
        ++ pstr ":sql:demo:" := by
  have h1 : pstr "BIG" = ['B', 'I', 'G'] := by decide
  have h2 : pstr "monetdb" = ['m', 'o', 'n', 'e', 't', 'd', 'b'] := by decide
  have h3 : pstr "SHA256" = ['S', 'H', 'A', '2', '5', '6'] := by decide
  have h4 : pstr "sql" = ['s', 'q', 'l'] := by decide
  have h5 : pstr "demo" = ['d', 'e', 'm', 'o'] := by decide
  have h6 : pstr "BIG:monetdb:"
      = ['B', 'I', 'G', ':', 'm', 'o', 'n', 'e', 't', 'd', 'b', ':'] := by decide
  have h7 : pstr ":sql:demo:" = [':', 's', 'q', 'l', ':', 'd', 'e', 'm', 'o', ':'] := by decide
  rw [h1, h2, h3, h4, h5, h6, h7]
  simp [List.intercalate, List.intersperse]

/-- Claim C2: on the challenge "sXYZ:mserver:9:SHA256,SHA1:LIT:SHA512:" with
user monetdb, password monetdb, language sql and database demo, the login
response equals "BIG:monetdb:{SHA256}hex:sql:demo:" where hex is SHA256
applied to SHA512("monetdb")'s hexdigest concatenated with the salt "sXYZ" —
SHA256 being the first client-implemented algorithm of the hashes list; and
when no algorithm of the hashes list is implemented, the response computation
raises NotSupported. -/
theorem c2_challenge_response (algos : Str → Option (Str → Str)) (h512 h256 : Str → Str)
    (ha512 : algos (pstr "SHA512") = some h512)
    (ha256 : algos (pstr "SHA256") = some h256) :
    challenge_response algos none (some (pstr "monetdb")) (some (pstr "monetdb"))
        (pstr "sql") (some (pstr "demo")) (pstr "sXYZ:mserver:9:SHA256,SHA1:LIT:SHA512:")
      = .ok { response := pstr "BIG:monetdb:" ++ [Char.ofNat 123] ++ pstr "SHA256"
                ++ [Char.ofNat 125] ++ h256 (h512 (pstr "monetdb") ++ pstr "sXYZ")
                ++ pstr ":sql:demo:",
              updatedOptions := [], remaining := [],
              serverEndian := pstr "little", binexportLevel := 0 }
    ∧ (∀ (hashes u p db : Str), (∀ n ∈ splitOnChar ',' hashes, algos n = none) →
        challenge_response_parsed algos none (some u) (some p) (pstr "sql") (some db)
          [pstr "s", pstr "t", pstr "9", hashes, pstr "LIT", pstr "SHA512", []]
          = .error ⟨.notSupported,
              pstr "Unsupported hash algorithms required for login: " ++ hashes⟩) := by
  constructor
  · unfold challenge_response
    rw [show splitOnChar ':' (pstr "sXYZ:mserver:9:SHA256,SHA1:LIT:SHA512:")
        = [pstr "sXYZ", pstr "mserver", pstr "9", pstr "SHA256,SHA1", pstr "LIT",
           pstr "SHA512", []] from by decide]
    have hpick : pickHash algos (splitOnChar ',' (pstr "SHA256,SHA1"))
        (h512 (pstr "monetdb")) (pstr "sXYZ")
        = some (pstr "SHA256", h256 (h512 (pstr "monetdb") ++ pstr "sXYZ")) := by
      rw [show splitOnChar ',' (pstr "SHA256,SHA1") = [pstr "SHA256", pstr "SHA1"] from by
        decide]
      simp only [pickHash, ha256]
    rw [challenge_response_parsed_six algos (pstr "monetdb") (pstr "monetdb") (pstr "sql")
      (pstr "demo") (pstr "sXYZ") (pstr "mserver") (pstr "SHA256,SHA1") (pstr "SHA512")
      h512 (pstr "SHA256") (h256 (h512 (pstr "monetdb") ++ pstr "sXYZ"))
      (by decide) ha512 hpick]
    rw [intercalate_response_flat]
  · intro hashes u p db hnone
    have hst : pstr "t" ≠ pstr "merovingian" := by decide
    have hpick0 : pickHash algos (splitOnChar ',' hashes) (h512 p) (pstr "s") = none :=
      pickHash_none algos (h512 p) (pstr "s") _ hnone
    simp [challenge_response_parsed, hst, ha512, hpick0]

/-- Witness for C2 at the example hash registry. -/
theorem c2_witness :
    (algosEx (pstr "SHA512") = some h512ex ∧ algosEx (pstr "SHA256") = some h256ex)
    ∧ challenge_response algosEx none (some (pstr "monetdb")) (some (pstr "monetdb"))
        (pstr "sql") (some (pstr "demo")) (pstr "sXYZ:mserver:9:SHA256,SHA1:LIT:SHA512:")
      = .ok { response := pstr "BIG:monetdb:" ++ [Char.ofNat 123] ++ pstr "SHA256"
                ++ [Char.ofNat 125] ++ h256ex (h512ex (pstr "monetdb") ++ pstr "sXYZ")
                ++ pstr ":sql:demo:",
              updatedOptions := [], remaining := [],
              serverEndian := pstr "little", binexportLevel := 0 } :=
  ⟨⟨rfl, rfl⟩, (c2_challenge_response algosEx h512ex h256ex rfl rfl).1⟩

/-- Claim C8: with the server advertising options level N (parsed from the
`sql=N` part of the options field), exactly the callback-returned options with
level < N are serialized as name=value entries in the FILETRANS section of the
login response and marked sent; the remaining handshake options are exactly
those with level >= N, still unsent, in list order; and after the connection
becomes READY, `connect_finish` invokes the fallback of exactly those
remaining options, once each, with the option's value, in list order — no
option is both serialized inline and applied via fallback. -/
theorem c8_handshake_options (algos : Str → Option (Str → Str)) (hf : Str → Str)
    (opts : List HandshakeOption) (flags : Str) (N : Int) (u p db : Str)
    (hmd5 : algos (pstr "MD5") = some hf)
    (hsent : ∀ o ∈ opts, o.sent = false)
    (hlvl : parseOptionsLevel (splitOnChar ',' flags) 0 = .ok N) :
    challenge_response_parsed algos (some (fun _ => opts)) (some u) (some p) (pstr "sql")
        (some db)
        [pstr "s", pstr "t", pstr "9", pstr "MD5", pstr "LIT", pstr "MD5", flags, []]
      = .ok { response := List.intercalate [':']
                [pstr "BIG", u, [Char.ofNat 123] ++ pstr "MD5" ++ [Char.ofNat 125]
                  ++ hf (hf p ++ pstr "s"), pstr "sql", db]
                ++ [':'] ++ pstr "FILETRANS:"
                ++ List.intercalate [',']
                    ((opts.filter (fun o => decide (o.level < N))).map
                      (fun o => o.name ++ ['='] ++ intToStr o.value)) ++ [':'],
              updatedOptions := opts.map
                (fun o => if o.level < N then { o with sent := true } else o),
              remaining := opts.filter (fun o => !decide (o.level < N)),
              serverEndian := pstr "little", binexportLevel := 0 }
    ∧ connect_finish (opts.filter (fun o => !decide (o.level < N)))
        = (opts.filter (fun o => !decide (o.level < N))).map (fun o => (o.name, o.value)) := by
  constructor
  · have hpick : pickHash algos (splitOnChar ',' (pstr "MD5")) (hf p) (pstr "s")
        = some (pstr "MD5", hf (hf p ++ pstr "s")) := by
      rw [show splitOnChar ',' (pstr "MD5") = [pstr "MD5"] from by decide]
      simp only [pickHash, hmd5]
    rw [challenge_response_parsed_seven algos (fun _ => opts) u p (pstr "sql") db (pstr "s")
      (pstr "t") (pstr "MD5") (pstr "MD5") flags hf (pstr "MD5") (hf (hf p ++ pstr "s")) N
      (by decide) hmd5 hpick hlvl]
    rw [markSent_eq]
    simp [filter_map_upd N opts hsent]
  · rfl

/-- Witness for C8 at concrete options of levels 1 and 9 against the
advertised level 5. -/
theorem c8_witness :
    (algosC8 (pstr "MD5") = some hC8
      ∧ (∀ o ∈ optsC8, o.sent = false)
      ∧ parseOptionsLevel (splitOnChar ',' (pstr "sql=5")) 0 = .ok 5)
    ∧ challenge_response_parsed algosC8 (some (fun _ => optsC8)) (some (pstr "monetdb"))
        (some (pstr "monetdb")) (pstr "sql") (some (pstr "demo"))
        [pstr "s", pstr "t", pstr "9", pstr "MD5", pstr "LIT", pstr "MD5", pstr "sql=5", []]
      = .ok { response := List.intercalate [':']
                [pstr "BIG", pstr "monetdb", [Char.ofNat 123] ++ pstr "MD5" ++ [Char.ofNat 125]
                  ++ hC8 (hC8 (pstr "monetdb") ++ pstr "s"), pstr "sql", pstr "demo"]
                ++ [':'] ++ pstr "FILETRANS:"
                ++ List.intercalate [',']
                    ((optsC8.filter (fun o => decide (o.level < 5))).map
                      (fun o => o.name ++ ['='] ++ intToStr o.value)) ++ [':'],
              updatedOptions := optsC8.map
                (fun o => if o.level < 5 then { o with sent := true } else o),
              remaining := optsC8.filter (fun o => !decide (o.level < 5)),
              serverEndian := pstr "little", binexportLevel := 0 } :=
  ⟨⟨rfl, by decide, rfl⟩,
    (c8_handshake_options algosC8 hC8 optsC8 (pstr "sql=5") 5 (pstr "monetdb")
      (pstr "monetdb") (pstr "demo") rfl (by decide) rfl).1⟩

end Pymonetdb
